import Mathlib

/-!
# Verification of the `pca` shape-model pipeline (`AmpScan/pca.py`)

This file gives a shallow embedding of the numerical core of the `pca`
class in `src/AmpScan/pca.py` and proves/refutes the frozen claims about
its behaviour.

Modelling conventions:
* numpy floating-point scalars are idealised as elements of an arbitrary
  `Field α` (instantiated at `ℚ` or `ℝ` in the theorems);
* a numpy `ndarray` is either 1-dimensional (a list of scalars) or
  2-dimensional (a rectangular list of row lists);
* Python exceptions are an explicit error type, and each method returns
  `Except` or a `(state, Option error)` pair, since a Python method that
  raises still keeps every attribute assignment it made before raising;
* the object attributes `self.X`, `self.pca_mean`, `self.pca_U`,
  `self.pca_S`, `self.pca_V`, `self.pc_weights`, `self.pc_stdevs` are
  `Option` fields of a state structure (`none` = attribute not yet set,
  so that reading it raises `AttributeError`).  The mesh-level fields
  (`shapes`, `baseline`, `registered`) belong to the external mesh and
  registration collaborators and are not part of the numerical core; the
  matrix-assembly half of `register` is modelled on the registered
  shapes' vertex arrays directly.
* `np.linalg.svd` is an external LAPACK routine; it is a parameter of the
  embedded `pca` method.  On non-finite input it raises
  `LinAlgError` (\"SVD did not converge\"); on ordinary finite input it
  returns a triple `(U, S, Vt)`.
-/

/-- The Python exceptions that the methods of the `pca` class can raise
(`attributeError`, `unboundLocalError`, `valueError`, `axisError`,
`linAlgError`), together with the error names of the design spec's
taxonomy (`modelNotFittedError`, `dimensionMismatchError`,
`topologyMismatchError`, `insufficientDataError`, `decompositionError`).
The spec-taxonomy constructors are never produced by the translated
code; they are included only so that the spec's claims about *which*
error occurs can be stated and compared against the code's behaviour. -/
inductive PyError where
  | attributeError
  | unboundLocalError
  | valueError
  | axisError
  | linAlgError
  | modelNotFittedError
  | dimensionMismatchError
  | topologyMismatchError
  | insufficientDataError
  | decompositionError
  deriving DecidableEq

/-- A numpy `ndarray` of scalars, restricted to the two ranks that occur
in `pca.py`: 1-dimensional (`one`) or 2-dimensional rectangular (`two`,
stored as its list of rows). -/
inductive NpArray (α : Type) where
  | one : List α → NpArray α
  | two : List (List α) → NpArray α
  deriving DecidableEq

variable {α : Type} [Field α] {β : Type}

/-- `np.array` applied to a Python list of `n` lists of scalars:
an empty list gives the empty 1-D array (shape `(0,)`); lists of equal
length give a 2-D array whose rows are those lists; a ragged list of
lists is rejected with `ValueError` (numpy refuses to build an ndarray
from an inhomogeneous nested sequence). -/
def npArrayOfLists (rows : List (List α)) : Except PyError (NpArray α) :=
  match rows with
  | [] => .ok (.one [])
  | r :: rs =>
    if rs.all fun s => s.length = r.length then .ok (.two (r :: rs))
    else .error .valueError

/-- Transpose of a rectangular list-of-rows matrix, as numpy computes it
for a 2-D array: entry `(i, n)` of the result is entry `(n, i)` of the
input.  (Only ever applied to rectangular inputs, where it agrees with
the mathematical transpose.) -/
def rowsT (rows : List (List α)) : List (List α) :=
  (List.range ((rows.headD []).length)).map fun i => rows.map fun r => r.getD i 0

/-- `.T` on an ndarray: transposing a 1-D array is the identity,
transposing a 2-D array swaps the axes. -/
def npT (A : NpArray α) : NpArray α :=
  match A with
  | .one v => .one v
  | .two rows => .two (rowsT rows)

/-- `r.vert.flatten()`: the row-major flattening of a `V × 3` vertex
array, i.e. vertex-major order with the `x, y, z` coordinates of each
vertex adjacent. -/
def flattenVerts (s : List (α × α × α)) : List α :=
  (s.map fun v => [v.1, v.2.1, v.2.2]).flatten

/-- The matrix-assembly half of `pca.register`:
`self.X = np.array([r.vert.flatten() for r in self.registered]).T`,
taking the registered shapes' vertex arrays as input (the registration
call itself is an external collaborator). -/
def buildX (registered : List (List (α × α × α))) : Except PyError (NpArray α) :=
  match npArrayOfLists (registered.map flattenVerts) with
  | .error e => .error e
  | .ok A => .ok (npT A)

/-- The attribute dictionary of a `pca` object, restricted to the fields
the numerical core reads and writes.  `none` means the attribute has not
been assigned yet, so that an attribute read raises `AttributeError`. -/
structure PcaState (α : Type) where
  X : Option (NpArray α) := none
  pca_mean : Option (List α) := none
  pca_U : Option (List (List α)) := none
  pca_S : Option (List α) := none
  pca_V : Option (List (List α)) := none
  pc_weights : Option (List (List α)) := none
  pc_stdevs : Option (List α) := none
  deriving DecidableEq

/-- A freshly constructed `pca()` object: no numerical attribute set. -/
def freshPca : PcaState α := {}

/-- Reading `self.<attribute>`: raises `AttributeError` when the
attribute has never been assigned. -/
def pyAttr (o : Option β) : Except PyError β :=
  match o with
  | none => .error .attributeError
  | some x => .ok x

/-- Elementwise product `A * v` of a 2-D array `A` (rows of length `K`)
with a 1-D array `v` of length `L`, under numpy broadcasting:
`L = K` multiplies each row elementwise by `v`; `L = 1` scales every
entry by the single element of `v`; `K = 1` broadcasts the single column
across `v` (giving rows of length `L`); any other shape combination
raises `ValueError`. -/
def bcastMulMV (A : List (List α)) (v : List α) : Except PyError (List (List α)) :=
  if v.length = (A.headD []).length then
    .ok (A.map fun row => List.zipWith (fun a b => a * b) row v)
  else if v.length = 1 then
    .ok (A.map fun row => row.map fun a => a * v.headD 0)
  else if (A.headD []).length = 1 then
    .ok (A.map fun row => v.map fun b => row.headD 0 * b)
  else .error .valueError

/-- Elementwise sum `u + v` of two 1-D arrays under numpy broadcasting:
equal lengths add elementwise, a length-1 operand is broadcast, anything
else raises `ValueError`. -/
def bcastAddVV (u v : List α) : Except PyError (List α) :=
  if u.length = v.length then .ok (List.zipWith (fun a b => a + b) u v)
  else if v.length = 1 then .ok (u.map fun a => a + v.headD 0)
  else if u.length = 1 then .ok (v.map fun b => u.headD 0 + b)
  else .error .valueError

/-- `np.diag S`: the square diagonal matrix with `S` on the diagonal. -/
def npDiag (S : List α) : List (List α) :=
  (List.range S.length).map fun i =>
    (List.range S.length).map fun j => if i = j then S.getD i 0 else 0

/-- Dot product of two equal-length rows. -/
def dotL (u v : List α) : α := (List.zipWith (fun a b => a * b) u v).sum

/-- `np.dot` of two rectangular 2-D arrays. -/
def matMul (A B : List (List α)) : List (List α) :=
  A.map fun r => (rowsT B).map fun c => dotL r c

/-- `np.std` of a 1-D array (one row of `pc_weights`): the square root
of the mean squared deviation from the mean, with the default `ddof=0`,
i.e. with the `N`-divisor (no Bessel correction).  `sqrt` is the scalar
square root, a parameter because the scalar field is generic; it is
instantiated with `Real.sqrt` over `ℝ`. -/
def npStd (sqrt : α → α) (row : List α) : α :=
  sqrt (((row.map fun x => (x - row.sum / (row.length : α)) ^ 2).sum) / (row.length : α))

/-- The `pca.pca` method:
```
self.pca_mean = self.X.mean(axis=1)
X_meanC = self.X - self.pca_mean[:, None]
(self.pca_U, self.pca_S, self.pca_V) = np.linalg.svd(X_meanC, full_matrices=False)
self.pc_weights = np.dot(np.diag(self.pca_S), self.pca_V)
self.pc_stdevs = np.std(self.pc_weights, axis=1)
```
Returns the object state after the call together with the exception it
raised, if any; attribute assignments made before an exception are kept,
exactly as in Python.  `X.mean(axis=1)` on a 1-D array (the `X` produced
by an empty registered set) raises `AxisError`.  `svd` is the external
`np.linalg.svd` call, a parameter of the embedding. -/
def pcaMethod (sqrt : α → α)
    (svd : List (List α) → Except PyError (List (List α) × List α × List (List α)))
    (st : PcaState α) : PcaState α × Option PyError :=
  match st.X with
  | none => (st, some .attributeError)
  | some (.one _) => (st, some .axisError)
  | some (.two rows) =>
    let m := rows.map fun r => r.sum / (r.length : α)
    let st1 := { st with pca_mean := some m }
    let Xc := List.zipWith (fun r mi => r.map fun x => x - mi) rows m
    match svd Xc with
    | .error e => (st1, some e)
    | .ok (U, S, Vt) =>
      let st2 := { st1 with pca_U := some U, pca_S := some S, pca_V := some Vt }
      let W := matMul (npDiag S) Vt
      let st3 := { st2 with pc_weights := some W }
      ({ st3 with pc_stdevs := some (W.map (npStd sqrt)) }, none)

/-- The `pca.newShape` method:
```
if scale == 'eigs':
    sf = (self.pca_U * sfs).sum(axis=1)
elif scale == 'std':
    sf = (self.pca_U * self.pc_stdevs * sfs).sum(axis=1)
return self.pca_mean + sf
```
The two recognised branches compute `sf` (propagating any exception the
attribute reads or the broadcasts raise); an unrecognised `scale` leaves
`sf` unassigned, so the final `self.pca_mean + sf` first reads
`self.pca_mean` (raising `AttributeError` on an unfitted object) and
then raises `UnboundLocalError` on the unassigned local `sf`. -/
def newShape (st : PcaState α) (sfs : List α) (scale : String) :
    Except PyError (List α) :=
  let sfRes : Except PyError (Option (List α)) :=
    if scale = "eigs" then
      match pyAttr st.pca_U with
      | .error e => .error e
      | .ok U =>
        match bcastMulMV U sfs with
        | .error e => .error e
        | .ok P => .ok (some (P.map List.sum))
    else if scale = "std" then
      match pyAttr st.pca_U with
      | .error e => .error e
      | .ok U =>
        match pyAttr st.pc_stdevs with
        | .error e => .error e
        | .ok sd =>
          match bcastMulMV U sd with
          | .error e => .error e
          | .ok P1 =>
            match bcastMulMV P1 sfs with
            | .error e => .error e
            | .ok P2 => .ok (some (P2.map List.sum))
    else .ok none
  match sfRes with
  | .error e => .error e
  | .ok sf? =>
    match pyAttr st.pca_mean with
    | .error e => .error e
    | .ok m =>
      match sf? with
      | none => .error .unboundLocalError
      | some sf => bcastAddVV m sf

/-! ## Helper lemmas about list sums and indexing -/

theorem zip_mul_sum (row v : List α) (K : ℕ) (h1 : row.length = K) (h2 : v.length = K) :
    (List.zipWith (fun a b => a * b) row v).sum
      = ((List.range K).map fun k => row.getD k 0 * v.getD k 0).sum := by
  induction K generalizing row v with
  | zero =>
    rw [List.length_eq_zero] at h1 h2
    subst h1; subst h2; simp
  | succ n ih =>
    cases row with
    | nil => simp at h1
    | cons a as =>
      cases v with
      | nil => simp at h2
      | cons b bs =>
        have has : as.length = n := by simpa using h1
        have hbs : bs.length = n := by simpa using h2
        simp only [List.zipWith_cons_cons, List.sum_cons, ih as bs has hbs,
          List.range_succ_eq_map, List.map_cons, List.map_map, List.getD_cons_zero]
        congr 1

theorem zip_mul3_sum (u v w : List α) (K : ℕ)
    (hu : u.length = K) (hv : v.length = K) (hw : w.length = K) :
    (List.zipWith (fun a b => a * b) (List.zipWith (fun a b => a * b) u v) w).sum
      = ((List.range K).map fun k => u.getD k 0 * v.getD k 0 * w.getD k 0).sum := by
  induction K generalizing u v w with
  | zero =>
    rw [List.length_eq_zero] at hu hv hw
    subst hu; subst hv; subst hw; simp
  | succ n ih =>
    cases u with
    | nil => simp at hu
    | cons a as =>
      cases v with
      | nil => simp at hv
      | cons b bs =>
        cases w with
        | nil => simp at hw
        | cons c cs =>
          have has : as.length = n := by simpa using hu
          have hbs : bs.length = n := by simpa using hv
          have hcs : cs.length = n := by simpa using hw
          simp only [List.zipWith_cons_cons, List.sum_cons, ih as bs cs has hbs hcs,
            List.range_succ_eq_map, List.map_cons, List.map_map, List.getD_cons_zero]
          congr 1

theorem zip_mul_replicate_zero (row : List α) (K : ℕ) :
    (List.zipWith (fun a b => a * b) row (List.replicate K (0 : α))).sum = 0 := by
  induction row generalizing K with
  | nil => simp
  | cons a as ih =>
    cases K with
    | zero => simp
    | succ n => simp [List.replicate_succ, ih n]

theorem zip_add_map_zero (m : List α) (l : List β) (h : l.length = m.length) :
    List.zipWith (fun a b => a + b) m (l.map fun _ => (0 : α)) = m := by
  induction m generalizing l with
  | nil => simp
  | cons a as ih =>
    cases l with
    | nil => simp at h
    | cons x xs =>
      have hxs : xs.length = as.length := by simpa using h
      simpa using ih xs hxs

theorem getD_range_map (f : ℕ → β) (n i : ℕ) (d : β) (h : i < n) :
    ((List.range n).map f).getD i d = f i := by
  rw [List.getD_eq_getElem _ _ (by simpa using h)]
  simp [List.getElem_range]

theorem sum_eq_range_getD_sum (row : List α) (N : ℕ) (h : row.length = N) :
    row.sum = ((List.range N).map fun n => row.getD n 0).sum := by
  induction N generalizing row with
  | zero =>
    rw [List.length_eq_zero] at h
    subst h; simp
  | succ n ih =>
    cases row with
    | nil => simp at h
    | cons a as =>
      have has : as.length = n := by simpa using h
      simp only [List.sum_cons, ih as has, List.range_succ_eq_map, List.map_cons,
        List.map_map, List.getD_cons_zero]
      congr 1

/-! ## C1: raw-mode synthesis -/

/-- C1: on a fitted model with `K` modes (basis `U` rectangular with rows
of length `K`, as many rows as the mean has entries), `newShape` with
`scale = 'eigs'` and a coefficient vector of length exactly `K` returns
the stored mean plus the basis applied to the coefficients:
entry `i` of the result is `mean[i] + Σ_k U[i][k] · sfs[k]`. -/
theorem newShape_eigs_is_mean_plus_basis_combo (st : PcaState ℚ) (m : List ℚ)
    (U : List (List ℚ)) (K : ℕ) (sfs : List ℚ)
    (hm : st.pca_mean = some m) (hU : st.pca_U = some U)
    (hrect : ∀ row ∈ U, row.length = K) (hne : U ≠ [])
    (hlen : U.length = m.length) (hsfs : sfs.length = K) :
    ∃ r, newShape st sfs "eigs" = .ok r ∧ r.length = m.length ∧
      ∀ i, i < m.length →
        r.getD i 0 = m.getD i 0 +
          ((List.range K).map fun k => (U.getD i []).getD k 0 * sfs.getD k 0).sum := by
  cases U with
  | nil => exact absurd rfl hne
  | cons u0 Us =>
    have hu0 : u0.length = K := hrect u0 (by simp)
    have hlen' : Us.length + 1 = m.length := by simpa using hlen
    have hhead : sfs.length = ((u0 :: Us).headD []).length := by simp [hu0, hsfs]
    have hmul : bcastMulMV (u0 :: Us) sfs
        = .ok ((u0 :: Us).map fun row => List.zipWith (fun a b => a * b) row sfs) := by
      unfold bcastMulMV
      rw [if_pos hhead]
    have hlensf : m.length
        = (((u0 :: Us).map fun row => List.zipWith (fun a b => a * b) row sfs).map
            List.sum).length := by
      simp [hlen'.symm]
    have hadd : bcastAddVV m
        (((u0 :: Us).map fun row => List.zipWith (fun a b => a * b) row sfs).map List.sum)
        = .ok (List.zipWith (fun a b => a + b) m
            (((u0 :: Us).map fun row =>
              List.zipWith (fun a b => a * b) row sfs).map List.sum)) := by
      unfold bcastAddVV
      rw [if_pos hlensf]
    refine ⟨List.zipWith (fun a b => a + b) m
      (((u0 :: Us).map fun row => List.zipWith (fun a b => a * b) row sfs).map List.sum),
      ?_, ?_, ?_⟩
    · simp only [newShape, hU, hm, pyAttr, hmul]
      simpa using hadd
    · simp only [List.length_zipWith, List.length_map, List.length_cons]
      omega
    · intro i hi
      have hiU : i < (u0 :: Us).length := by rw [hlen]; exact hi
      have hir : i < (List.zipWith (fun a b => a + b) m
          (((u0 :: Us).map fun row =>
            List.zipWith (fun a b => a * b) row sfs).map List.sum)).length := by
        simp only [List.length_zipWith, List.length_map, List.length_cons]
        omega
      rw [List.getD_eq_getElem _ _ hir, List.getD_eq_getElem _ _ hi]
      rw [List.getElem_zipWith]
      congr 1
      rw [List.getElem_map, List.getElem_map]
      rw [List.getD_eq_getElem _ _ hiU]
      exact zip_mul_sum ((u0 :: Us)[i]) sfs K (hrect _ (List.getElem_mem hiU)) hsfs

/-- Witness for C1 at a concrete fitted model: `K = 2`, basis
`[[1, 0], [0, 1]]`, mean `[10, 20]`, coefficients `[2, 3]`. -/
theorem newShape_eigs_is_mean_plus_basis_combo_witness :
    ∃ r, newShape
        ({ pca_mean := some [10, 20], pca_U := some [[1, 0], [0, 1]] } : PcaState ℚ)
        [2, 3] "eigs" = .ok r ∧ r.length = ([10, 20] : List ℚ).length ∧
      ∀ i, i < ([10, 20] : List ℚ).length →
        r.getD i 0 = ([10, 20] : List ℚ).getD i 0 +
          ((List.range 2).map fun k =>
            (([[1, 0], [0, 1]] : List (List ℚ)).getD i []).getD k 0
              * ([2, 3] : List ℚ).getD k 0).sum :=
  newShape_eigs_is_mean_plus_basis_combo _ [10, 20] [[1, 0], [0, 1]] 2 [2, 3]
    rfl rfl (by intro row hr; simp at hr; rcases hr with h | h <;> simp [h])
    (by simp) (by simp) (by simp)

/-! ## C2: standardized-mode synthesis -/

/-- General shape of `newShape` with `scale = 'std'` on a fitted state:
entry `i` of the result is `mean[i] + Σ_k U[i][k] · sd[k] · sfs[k]`,
where `sd` is the stored `pc_stdevs` attribute. -/
theorem newShape_std_general (st : PcaState α) (m : List α) (U : List (List α))
    (sd : List α) (K : ℕ) (sfs : List α)
    (hm : st.pca_mean = some m) (hU : st.pca_U = some U) (hsd : st.pc_stdevs = some sd)
    (hrect : ∀ row ∈ U, row.length = K) (hne : U ≠ [])
    (hlen : U.length = m.length) (hsdlen : sd.length = K) (hsfs : sfs.length = K) :
    ∃ r, newShape st sfs "std" = .ok r ∧ r.length = m.length ∧
      ∀ i, i < m.length →
        r.getD i 0 = m.getD i 0 +
          ((List.range K).map fun k =>
            (U.getD i []).getD k 0 * sd.getD k 0 * sfs.getD k 0).sum := by
  cases U with
  | nil => exact absurd rfl hne
  | cons u0 Us =>
    have hu0 : u0.length = K := hrect u0 (by simp)
    have hlen' : Us.length + 1 = m.length := by simpa using hlen
    have hhead1 : sd.length = ((u0 :: Us).headD []).length := by simp [hu0, hsdlen]
    have hmul1 : bcastMulMV (u0 :: Us) sd
        = .ok ((u0 :: Us).map fun row => List.zipWith (fun a b => a * b) row sd) := by
      unfold bcastMulMV
      rw [if_pos hhead1]
    have hhead2 : sfs.length
        = ((((u0 :: Us).map fun row =>
            List.zipWith (fun a b => a * b) row sd).headD []).length) := by
      simp [List.length_zipWith, hu0, hsdlen, hsfs]
    have hmul2 : bcastMulMV
        ((u0 :: Us).map fun row => List.zipWith (fun a b => a * b) row sd) sfs
        = .ok (((u0 :: Us).map fun row => List.zipWith (fun a b => a * b) row sd).map
            fun row => List.zipWith (fun a b => a * b) row sfs) := by
      unfold bcastMulMV
      rw [if_pos hhead2]
    have hlensf : m.length
        = ((((u0 :: Us).map fun row => List.zipWith (fun a b => a * b) row sd).map
            fun row => List.zipWith (fun a b => a * b) row sfs).map List.sum).length := by
      simp [hlen'.symm]
    have hadd : bcastAddVV m
        ((((u0 :: Us).map fun row => List.zipWith (fun a b => a * b) row sd).map
          fun row => List.zipWith (fun a b => a * b) row sfs).map List.sum)
        = .ok (List.zipWith (fun a b => a + b) m
            ((((u0 :: Us).map fun row => List.zipWith (fun a b => a * b) row sd).map
              fun row => List.zipWith (fun a b => a * b) row sfs).map List.sum)) := by
      unfold bcastAddVV
      rw [if_pos hlensf]
    refine ⟨List.zipWith (fun a b => a + b) m
      ((((u0 :: Us).map fun row => List.zipWith (fun a b => a * b) row sd).map
        fun row => List.zipWith (fun a b => a * b) row sfs).map List.sum),
      ?_, ?_, ?_⟩
    · simp only [newShape, hU, hm, hsd, pyAttr, hmul1, hmul2]
      simpa using hadd
    · simp only [List.length_zipWith, List.length_map, List.length_cons]
      omega
    · intro i hi
      have hiU : i < (u0 :: Us).length := by rw [hlen]; exact hi
      have hir : i < (List.zipWith (fun a b => a + b) m
          ((((u0 :: Us).map fun row => List.zipWith (fun a b => a * b) row sd).map
            fun row => List.zipWith (fun a b => a * b) row sfs).map List.sum)).length := by
        simp only [List.length_zipWith, List.length_map, List.length_cons]
        omega
      rw [List.getD_eq_getElem _ _ hir, List.getD_eq_getElem _ _ hi]
      rw [List.getElem_zipWith]
      congr 1
      rw [List.getElem_map, List.getElem_map, List.getElem_map]
      rw [List.getD_eq_getElem _ _ hiU]
      exact zip_mul3_sum ((u0 :: Us)[i]) sd sfs K
        (hrect _ (List.getElem_mem hiU)) hsdlen hsfs

/-- C2: after a successful fit (`pca.pca` with the SVD returning
`(U, S, Vt)`), `newShape` with `scale = 'std'` and a coefficient vector
of length exactly `K` returns
`mean + Σ_k U[:,k] · modeStdDevs[k] · sfs[k]`, where `mean` is the
row-wise average of `X` and `modeStdDevs[k]` is the standard deviation
of row `k` of the scores matrix `pc_weights = diag(S) · Vt`, computed
with the `N`-divisor (no Bessel correction) convention:
`sqrt( Σ_n (w[k][n] - mean(w[k]))² / N )`. -/
theorem newShape_std_is_mean_plus_stdev_scaled_combo
    (st0 : PcaState ℝ)
    (svd : List (List ℝ) → Except PyError (List (List ℝ) × List ℝ × List (List ℝ)))
    (rows : List (List ℝ)) (U : List (List ℝ)) (S : List ℝ) (Vt : List (List ℝ))
    (K : ℕ) (sfs : List ℝ)
    (hX : st0.X = some (.two rows))
    (hsvd : svd (List.zipWith (fun r mi => r.map fun x => x - mi) rows
        (rows.map fun r => r.sum / (r.length : ℝ))) = .ok (U, S, Vt))
    (hrect : ∀ row ∈ U, row.length = K) (hne : U ≠ [])
    (hS : S.length = K) (hD : U.length = rows.length) (hsfs : sfs.length = K) :
    ∃ r, newShape (pcaMethod Real.sqrt svd st0).1 sfs "std" = .ok r ∧
      r.length = rows.length ∧
      ∀ i, i < rows.length →
        r.getD i 0 =
          (rows.getD i []).sum / ((rows.getD i []).length : ℝ)
          + ((List.range K).map fun k =>
              (U.getD i []).getD k 0
              * Real.sqrt (((((matMul (npDiag S) Vt).getD k []).map fun x =>
                    (x - ((matMul (npDiag S) Vt).getD k []).sum
                      / (((matMul (npDiag S) Vt).getD k []).length : ℝ)) ^ 2).sum)
                  / (((matMul (npDiag S) Vt).getD k []).length : ℝ))
              * sfs.getD k 0).sum := by
  have h1 : (pcaMethod Real.sqrt svd st0).1.pca_mean
      = some (rows.map fun r => r.sum / (r.length : ℝ)) := by
    simp [pcaMethod, hX, hsvd]
  have h2 : (pcaMethod Real.sqrt svd st0).1.pca_U = some U := by
    simp [pcaMethod, hX, hsvd]
  have h3 : (pcaMethod Real.sqrt svd st0).1.pc_stdevs
      = some ((matMul (npDiag S) Vt).map (npStd Real.sqrt)) := by
    simp [pcaMethod, hX, hsvd]
  have hWlen : (matMul (npDiag S) Vt).length = K := by
    simp [matMul, npDiag, hS]
  have hsdlen : ((matMul (npDiag S) Vt).map (npStd Real.sqrt)).length = K := by
    simp [hWlen]
  have hlen : U.length = (rows.map fun r => r.sum / (r.length : ℝ)).length := by
    simp [hD]
  obtain ⟨r, hr1, hr2, hr3⟩ := newShape_std_general (pcaMethod Real.sqrt svd st0).1
    (rows.map fun r => r.sum / (r.length : ℝ)) U
    ((matMul (npDiag S) Vt).map (npStd Real.sqrt)) K sfs
    h1 h2 h3 hrect hne hlen hsdlen hsfs
  refine ⟨r, hr1, by simpa using hr2, ?_⟩
  intro i hi
  have him : i < (rows.map fun r => r.sum / (r.length : ℝ)).length := by simpa using hi
  rw [hr3 i him]
  congr 1
  · rw [List.getD_eq_getElem _ _ him, List.getElem_map, List.getD_eq_getElem _ _ hi]
  · apply congrArg
    apply List.map_congr_left
    intro k hk
    have hkK : k < K := List.mem_range.mp hk
    have hkW : k < (matMul (npDiag S) Vt).length := by rw [hWlen]; exact hkK
    have hksd : k < ((matMul (npDiag S) Vt).map (npStd Real.sqrt)).length := by
      rw [hsdlen]; exact hkK
    rw [List.getD_eq_getElem _ _ hksd, List.getElem_map, List.getD_eq_getElem _ _ hkW]
    simp [npStd]

/-- Witness for C2 at a concrete fit: data matrix `X = [[1, -1]]`
(one row, two samples, mean `0`), an SVD oracle returning
`U = [[2]]`, `S = [1]`, `Vt = [[1, -1]]`, and coefficients `[3]`. -/
theorem newShape_std_is_mean_plus_stdev_scaled_combo_witness :
    ∃ r, newShape (pcaMethod Real.sqrt
        (fun _ => .ok ([[2]], [1], [[1, -1]]))
        ({ X := some (.two [[1, -1]]) } : PcaState ℝ)).1 [3] "std" = .ok r ∧
      r.length = ([[1, -1]] : List (List ℝ)).length ∧
      ∀ i, i < ([[1, -1]] : List (List ℝ)).length →
        r.getD i 0 =
          (([[1, -1]] : List (List ℝ)).getD i []).sum
            / ((([[1, -1]] : List (List ℝ)).getD i []).length : ℝ)
          + ((List.range 1).map fun k =>
              (([[2]] : List (List ℝ)).getD i []).getD k 0
              * Real.sqrt ((((
                    (matMul (npDiag ([1] : List ℝ)) [[1, -1]]).getD k []).map fun x =>
                    (x - ((matMul (npDiag ([1] : List ℝ)) [[1, -1]]).getD k []).sum
                      / (((matMul (npDiag ([1] : List ℝ)) [[1, -1]]).getD k []).length
                        : ℝ)) ^ 2).sum)
                  / (((matMul (npDiag ([1] : List ℝ)) [[1, -1]]).getD k []).length : ℝ))
              * (([3] : List ℝ)).getD k 0).sum :=
  newShape_std_is_mean_plus_stdev_scaled_combo
    ({ X := some (.two [[1, -1]]) } : PcaState ℝ)
    (fun _ => .ok ([[2]], [1], [[1, -1]]))
    [[1, -1]] [[2]] [1] [[1, -1]] 1 [3]
    rfl rfl (by intro row hr; simp at hr; simp [hr]) (by simp)
    (by simp) (by simp) (by simp)

/-! ## C3: coefficient vectors of the wrong length -/

/-- Counterexample to C3 on a fitted model with `K = 3` modes
(`U = [[1, 2, 4]]`, `mean = [0]`): a single coefficient `[1]` is
broadcast across all three modes (giving `[1·1 + 2·1 + 4·1] = [7]`),
which differs from the zero-padded `[1, 0, 0]` (giving `[1]`); and a
too-long vector `[1, 1, 1, 1]` raises numpy's broadcast `ValueError`,
not the spec's `DimensionMismatchError`. -/
theorem newShape_short_vector_not_zero_padded :
    newShape ({ pca_mean := some [0], pca_U := some [[1, 2, 4]],
                pc_stdevs := some [1, 1, 1] } : PcaState ℚ) [1] "eigs" = .ok [7]
    ∧ newShape ({ pca_mean := some [0], pca_U := some [[1, 2, 4]],
                  pc_stdevs := some [1, 1, 1] } : PcaState ℚ) [1, 0, 0] "eigs" = .ok [1]
    ∧ (Except.ok [7] : Except PyError (List ℚ)) ≠ .ok [1]
    ∧ newShape ({ pca_mean := some [0], pca_U := some [[1, 2, 4]],
                  pc_stdevs := some [1, 1, 1] } : PcaState ℚ) [1, 1, 1, 1] "eigs"
        = .error .valueError
    ∧ PyError.valueError ≠ PyError.dimensionMismatchError := by
  refine ⟨?_, ?_, ?_, ?_, ?_⟩
  · simp [newShape, pyAttr, bcastMulMV, bcastAddVV]
    norm_num
  · simp [newShape, pyAttr, bcastMulMV, bcastAddVV]
  · intro h
    simp at h
  · simp [newShape, pyAttr, bcastMulMV, bcastAddVV]
  · intro h
    cases h

/-- C3 as amended: on a fitted model with `K ≥ 2` modes, a coefficient
vector *longer* than `K` makes both synthesis modes fail with numpy's
broadcast `ValueError` (there is no `DimensionMismatchError` in the
code); a vector of length strictly between `1` and `K` also fails with
`ValueError`; and a *single* coefficient `[c]` is broadcast across all
`K` modes — raw-mode synthesis then returns
`mean[i] + Σ_k U[i][k] · c`, not the zero-padded result. -/
theorem newShape_wrong_length_broadcast_behaviour (st : PcaState ℚ) (m : List ℚ)
    (U : List (List ℚ)) (sd : List ℚ) (K : ℕ)
    (hm : st.pca_mean = some m) (hU : st.pca_U = some U) (hsd : st.pc_stdevs = some sd)
    (hrect : ∀ row ∈ U, row.length = K) (hne : U ≠ []) (hK : 2 ≤ K)
    (hsdlen : sd.length = K) (hlen : U.length = m.length) :
    (∀ sfs : List ℚ, K < sfs.length →
      newShape st sfs "eigs" = .error .valueError
      ∧ newShape st sfs "std" = .error .valueError)
    ∧ (∀ sfs : List ℚ, 1 < sfs.length → sfs.length < K →
      newShape st sfs "eigs" = .error .valueError)
    ∧ (∀ c : ℚ, ∃ r, newShape st [c] "eigs" = .ok r ∧ r.length = m.length ∧
      ∀ i, i < m.length →
        r.getD i 0 = m.getD i 0 + ((U.getD i []).map fun a => a * c).sum) := by
  cases U with
  | nil => exact absurd rfl hne
  | cons u0 Us =>
    have hu0 : u0.length = K := hrect u0 (by simp)
    have hlen' : Us.length + 1 = m.length := by simpa using hlen
    refine ⟨?_, ?_, ?_⟩
    · intro sfs hlong
      have h1 : ¬ sfs.length = ((u0 :: Us).headD []).length := by simp [hu0]; omega
      have h2 : ¬ sfs.length = 1 := by omega
      have h3 : ¬ ((u0 :: Us).headD ([] : List ℚ)).length = 1 := by simp [hu0]; omega
      have hmulerr : bcastMulMV (u0 :: Us) sfs = .error .valueError := by
        unfold bcastMulMV
        rw [if_neg h1, if_neg h2, if_neg h3]
      constructor
      · simp [newShape, hU, pyAttr, hmulerr]
      · have hhead1 : sd.length = ((u0 :: Us).headD []).length := by simp [hu0, hsdlen]
        have hmul1 : bcastMulMV (u0 :: Us) sd
            = .ok ((u0 :: Us).map fun row => List.zipWith (fun a b => a * b) row sd) := by
          unfold bcastMulMV
          rw [if_pos hhead1]
        have h1' : ¬ sfs.length
            = ((((u0 :: Us).map fun row =>
                List.zipWith (fun a b => a * b) row sd).headD []).length) := by
          simp [List.length_zipWith, hu0, hsdlen]
          omega
        have h3' : ¬ ((((u0 :: Us).map fun row =>
            List.zipWith (fun a b => a * b) row sd).headD ([] : List ℚ)).length) = 1 := by
          simp [List.length_zipWith, hu0, hsdlen]
          omega
        have hmulerr2 : bcastMulMV
            ((u0 :: Us).map fun row => List.zipWith (fun a b => a * b) row sd) sfs
            = .error .valueError := by
          unfold bcastMulMV
          rw [if_neg h1', if_neg h2, if_neg h3']
        simp only [List.map_cons] at hmulerr2
        simp [newShape, hU, hsd, pyAttr, hmul1, hmulerr2]
    · intro sfs hgt1 hltK
      have h1 : ¬ sfs.length = ((u0 :: Us).headD []).length := by simp [hu0]; omega
      have h2 : ¬ sfs.length = 1 := by omega
      have h3 : ¬ ((u0 :: Us).headD ([] : List ℚ)).length = 1 := by simp [hu0]; omega
      have hmulerr : bcastMulMV (u0 :: Us) sfs = .error .valueError := by
        unfold bcastMulMV
        rw [if_neg h1, if_neg h2, if_neg h3]
      simp [newShape, hU, pyAttr, hmulerr]
    · intro c
      have h1 : ¬ ([c].length : ℕ) = ((u0 :: Us).headD []).length := by
        simp [hu0]; omega
      have hmul : bcastMulMV (u0 :: Us) [c]
          = .ok ((u0 :: Us).map fun row => row.map fun a => a * ([c].headD 0)) := by
        unfold bcastMulMV
        rw [if_neg h1, if_pos (by simp : ([c] : List ℚ).length = 1)]
      have hlensf : m.length
          = (((u0 :: Us).map fun row => row.map fun a => a * ([c].headD 0)).map
              List.sum).length := by simp [hlen'.symm]
      have hadd : bcastAddVV m
          (((u0 :: Us).map fun row => row.map fun a => a * ([c].headD 0)).map List.sum)
          = .ok (List.zipWith (fun a b => a + b) m
              (((u0 :: Us).map fun row =>
                row.map fun a => a * ([c].headD 0)).map List.sum)) := by
        unfold bcastAddVV
        rw [if_pos hlensf]
      refine ⟨List.zipWith (fun a b => a + b) m
        (((u0 :: Us).map fun row => row.map fun a => a * ([c].headD 0)).map List.sum),
        ?_, ?_, ?_⟩
      · simp only [newShape, hU, hm, pyAttr, hmul]
        simpa using hadd
      · simp only [List.length_zipWith, List.length_map, List.length_cons]
        omega
      · intro i hi
        have hiU : i < (u0 :: Us).length := by rw [hlen]; exact hi
        have hir : i < (List.zipWith (fun a b => a + b) m
            (((u0 :: Us).map fun row =>
              row.map fun a => a * ([c].headD 0)).map List.sum)).length := by
          simp only [List.length_zipWith, List.length_map, List.length_cons]
          omega
        rw [List.getD_eq_getElem _ _ hir, List.getD_eq_getElem _ _ hi]
        rw [List.getElem_zipWith]
        congr 1
        rw [List.getElem_map, List.getElem_map]
        rw [List.getD_eq_getElem _ _ hiU]
        simp

/-- Witness for the amended C3 at a concrete fitted model with `K = 2`
(`U = [[1, 2], [3, 4]]`, `mean = [0, 1]`, `pc_stdevs = [1, 1]`). -/
theorem newShape_wrong_length_broadcast_behaviour_witness :
    (∀ sfs : List ℚ, 2 < sfs.length →
      newShape ({ pca_mean := some [0, 1], pca_U := some [[1, 2], [3, 4]],
                  pc_stdevs := some [1, 1] } : PcaState ℚ) sfs "eigs" = .error .valueError
      ∧ newShape ({ pca_mean := some [0, 1], pca_U := some [[1, 2], [3, 4]],
                    pc_stdevs := some [1, 1] } : PcaState ℚ) sfs "std" = .error .valueError)
    ∧ (∀ sfs : List ℚ, 1 < sfs.length → sfs.length < 2 →
      newShape ({ pca_mean := some [0, 1], pca_U := some [[1, 2], [3, 4]],
                  pc_stdevs := some [1, 1] } : PcaState ℚ) sfs "eigs" = .error .valueError)
    ∧ (∀ c : ℚ, ∃ r, newShape ({ pca_mean := some [0, 1],
                                 pca_U := some [[1, 2], [3, 4]],
                                 pc_stdevs := some [1, 1] } : PcaState ℚ) [c] "eigs" = .ok r ∧
        r.length = ([0, 1] : List ℚ).length ∧
        ∀ i, i < ([0, 1] : List ℚ).length →
          r.getD i 0 = ([0, 1] : List ℚ).getD i 0 +
            ((([[1, 2], [3, 4]] : List (List ℚ)).getD i []).map fun a => a * c).sum) :=
  newShape_wrong_length_broadcast_behaviour
    ({ pca_mean := some [0, 1], pca_U := some [[1, 2], [3, 4]],
       pc_stdevs := some [1, 1] } : PcaState ℚ)
    [0, 1] [[1, 2], [3, 4]] [1, 1] 2
    rfl rfl rfl
    (by intro row hr; simp at hr; rcases hr with h | h <;> simp [h])
    (by simp) (by norm_num) (by simp) (by simp)

/-! ## C4: all-zero coefficients return the mean -/

/-- C4: on a fitted model with `K` modes, `newShape` with the all-zeros
coefficient vector of length `K` returns exactly the stored mean, in
both the raw (`'eigs'`) and standardized (`'std'`) scale modes. -/
theorem newShape_zeros_returns_mean (st : PcaState ℚ) (m : List ℚ)
    (U : List (List ℚ)) (sd : List ℚ) (K : ℕ)
    (hm : st.pca_mean = some m) (hU : st.pca_U = some U) (hsd : st.pc_stdevs = some sd)
    (hrect : ∀ row ∈ U, row.length = K) (hne : U ≠ [])
    (hlen : U.length = m.length) (hsdlen : sd.length = K) :
    newShape st (List.replicate K 0) "eigs" = .ok m
    ∧ newShape st (List.replicate K 0) "std" = .ok m := by
  cases U with
  | nil => exact absurd rfl hne
  | cons u0 Us =>
    have hu0 : u0.length = K := hrect u0 (by simp)
    have hlenm : Us.length + 1 = m.length := by simpa using hlen
    constructor
    · have hhead : (List.replicate K (0 : ℚ)).length
          = ((u0 :: Us).headD []).length := by simp [hu0]
      have hmul : bcastMulMV (u0 :: Us) (List.replicate K 0)
          = .ok ((u0 :: Us).map fun row =>
              List.zipWith (fun a b => a * b) row (List.replicate K 0)) := by
        unfold bcastMulMV
        rw [if_pos hhead]
      have hzero : (((u0 :: Us)).map fun row =>
            List.zipWith (fun a b => a * b) row (List.replicate K 0)).map List.sum
          = (u0 :: Us).map fun _ => (0 : ℚ) := by
        rw [List.map_map]
        apply List.map_congr_left
        intro row _
        exact zip_mul_replicate_zero row K
      have hadd : bcastAddVV m ((((u0 :: Us)).map fun row =>
            List.zipWith (fun a b => a * b) row (List.replicate K 0)).map List.sum)
          = .ok m := by
        rw [hzero]
        unfold bcastAddVV
        rw [if_pos (by simp [hlenm.symm] : m.length
          = ((u0 :: Us).map fun _ => (0 : ℚ)).length)]
        rw [zip_add_map_zero m (u0 :: Us) (by simpa using hlen)]
      simp only [newShape, hU, hm, pyAttr, hmul]
      simpa using hadd
    · have hhead1 : sd.length = ((u0 :: Us).headD []).length := by simp [hu0, hsdlen]
      have hmul1 : bcastMulMV (u0 :: Us) sd
          = .ok ((u0 :: Us).map fun row => List.zipWith (fun a b => a * b) row sd) := by
        unfold bcastMulMV
        rw [if_pos hhead1]
      have hhead2 : (List.replicate K (0 : ℚ)).length
          = ((((u0 :: Us)).map fun row =>
              List.zipWith (fun a b => a * b) row sd).headD []).length := by
        simp [List.length_zipWith, hu0, hsdlen]
      have hmul2 : bcastMulMV
          (((u0 :: Us)).map fun row => List.zipWith (fun a b => a * b) row sd)
          (List.replicate K 0)
          = .ok ((((u0 :: Us)).map fun row =>
              List.zipWith (fun a b => a * b) row sd).map fun row =>
                List.zipWith (fun a b => a * b) row (List.replicate K 0)) := by
        unfold bcastMulMV
        rw [if_pos hhead2]
      have hzero : ((((u0 :: Us)).map fun row =>
            List.zipWith (fun a b => a * b) row sd).map fun row =>
              List.zipWith (fun a b => a * b) row (List.replicate K 0)).map List.sum
          = (((u0 :: Us)).map fun row =>
              List.zipWith (fun a b => a * b) row sd).map fun _ => (0 : ℚ) := by
        rw [List.map_map]
        apply List.map_congr_left
        intro row _
        exact zip_mul_replicate_zero row K
      have hadd : bcastAddVV m (((((u0 :: Us)).map fun row =>
            List.zipWith (fun a b => a * b) row sd).map fun row =>
              List.zipWith (fun a b => a * b) row (List.replicate K 0)).map List.sum)
          = .ok m := by
        rw [hzero]
        unfold bcastAddVV
        rw [if_pos (by simp [hlenm.symm] : m.length
          = ((((u0 :: Us)).map fun row =>
              List.zipWith (fun a b => a * b) row sd).map fun _ => (0 : ℚ)).length)]
        rw [zip_add_map_zero m
          (((u0 :: Us)).map fun row => List.zipWith (fun a b => a * b) row sd)
          (by simpa using hlen)]
      simp only [newShape, hU, hm, hsd, pyAttr, hmul1, hmul2]
      simpa using hadd

/-- Witness for C4 at a concrete fitted model with `K = 2`
(`U = [[1, 2], [5, 6]]`, `mean = [3, 4]`, `pc_stdevs = [7, 8]`). -/
theorem newShape_zeros_returns_mean_witness :
    newShape ({ pca_mean := some [3, 4], pca_U := some [[1, 2], [5, 6]],
                pc_stdevs := some [7, 8] } : PcaState ℚ)
      (List.replicate 2 0) "eigs" = .ok [3, 4]
    ∧ newShape ({ pca_mean := some [3, 4], pca_U := some [[1, 2], [5, 6]],
                  pc_stdevs := some [7, 8] } : PcaState ℚ)
      (List.replicate 2 0) "std" = .ok [3, 4] :=
  newShape_zeros_returns_mean
    ({ pca_mean := some [3, 4], pca_U := some [[1, 2], [5, 6]],
       pc_stdevs := some [7, 8] } : PcaState ℚ)
    [3, 4] [[1, 2], [5, 6]] [7, 8] 2
    rfl rfl rfl
    (by intro row hr; simp at hr; rcases hr with h | h <;> simp [h])
    (by simp) (by simp) (by simp)

/-! ## C5: behaviour of `pca.pca` when the SVD fails -/

/-- C5 as amended: whenever the `np.linalg.svd` call raises (as it does,
with `LinAlgError`, on non-finite input), the `pca.pca` method
terminates with that same exception, and the object is *not* left
untouched: `pca_mean` has already been overwritten with the new
matrix's row means before the SVD ran, while the remaining model
attributes (`pca_U`, `pca_S`, `pca_V`, `pc_weights`, `pc_stdevs`) keep
their previous values.  This holds for every scalar square root and
every failing SVD oracle. -/
theorem pca_svd_failure_overwrites_mean_only (st : PcaState ℚ) (sqrt : ℚ → ℚ)
    (svd : List (List ℚ) → Except PyError (List (List ℚ) × List ℚ × List (List ℚ)))
    (rows : List (List ℚ)) (e : PyError)
    (hX : st.X = some (.two rows))
    (hsvd : svd (List.zipWith (fun r mi => r.map fun x => x - mi) rows
        (rows.map fun r => r.sum / (r.length : ℚ))) = .error e) :
    pcaMethod sqrt svd st
      = ({ st with pca_mean := some (rows.map fun r => r.sum / (r.length : ℚ)) },
          some e) := by
  simp [pcaMethod, hX, hsvd]

/-- Counterexample to C5: a previously fitted object (with
`pca_mean = [5]` and a full set of model attributes) is refitted on
`X = [[1, 2]]` with an SVD that raises — modelling numpy's
`LinAlgError` on non-finite data; the scalar square root is never
reached on this path.  The call fails with `LinAlgError`, not the
spec's `DecompositionError`, and the previous model is *not* left
unchanged: `pca_mean` is now the new row mean `[3/2]`. -/
theorem pca_svd_failure_counterexample :
    (pcaMethod (fun x => x) (fun _ => .error .linAlgError)
      ({ X := some (.two [[1, 2]]), pca_mean := some [5], pca_U := some [[1]],
         pca_S := some [1], pca_V := some [[1]], pc_weights := some [[1]],
         pc_stdevs := some [0] } : PcaState ℚ)).2 = some .linAlgError
    ∧ (pcaMethod (fun x => x) (fun _ => .error .linAlgError)
      ({ X := some (.two [[1, 2]]), pca_mean := some [5], pca_U := some [[1]],
         pca_S := some [1], pca_V := some [[1]], pc_weights := some [[1]],
         pc_stdevs := some [0] } : PcaState ℚ)).1.pca_mean = some [3 / 2]
    ∧ (some [3 / 2] : Option (List ℚ)) ≠ some [5]
    ∧ PyError.linAlgError ≠ PyError.decompositionError
    ∧ (pcaMethod (fun x => x) (fun _ => .error .linAlgError)
      ({ X := some (.two [[1, 2]]), pca_mean := some [5], pca_U := some [[1]],
         pca_S := some [1], pca_V := some [[1]], pc_weights := some [[1]],
         pc_stdevs := some [0] } : PcaState ℚ)).1.pca_U = some [[1]] := by
  refine ⟨?_, ?_, ?_, ?_, ?_⟩
  · simp [pcaMethod]
  · simp [pcaMethod]
    norm_num
  · intro h
    simp at h
    norm_num at h
  · intro h
    cases h
  · simp [pcaMethod]

/-- Witness for the amended C5 at a concrete previously fitted state and
a failing SVD oracle. -/
theorem pca_svd_failure_overwrites_mean_only_witness :
    pcaMethod (fun x => x) (fun _ => .error .linAlgError)
      ({ X := some (.two [[2, 4]]), pca_mean := some [9] } : PcaState ℚ)
      = ({ X := some (.two [[2, 4]]),
           pca_mean := some ([[2, 4]].map fun r => r.sum / (r.length : ℚ)) },
          some .linAlgError) :=
  pca_svd_failure_overwrites_mean_only
    ({ X := some (.two [[2, 4]]), pca_mean := some [9] } : PcaState ℚ)
    (fun x => x) (fun _ => .error .linAlgError) [[2, 4]] .linAlgError rfl rfl

/-! ## C6: synthesis before any fit -/

/-- Counterexample to C6: on a freshly constructed `pca()` object,
`newShape` fails with Python's `AttributeError` (the attribute `pca_U`
has never been assigned), not the spec's `ModelNotFittedError`. -/
theorem newShape_unfitted_counterexample :
    newShape (freshPca : PcaState ℚ) [1] "eigs" = .error .attributeError
    ∧ PyError.attributeError ≠ PyError.modelNotFittedError := by
  constructor
  · simp [newShape, pyAttr, freshPca]
  · intro h
    cases h

/-- C6 as amended: on a freshly constructed `pca()` object (no fit ever
attempted), `newShape` fails for every coefficient vector and every
scale mode — but with `AttributeError`, because the first attribute the
taken path reads (`pca_U` in the two recognised branches, `pca_mean`
otherwise) was never assigned. -/
theorem newShape_unfitted_raises_attribute_error (sfs : List ℚ) (scale : String) :
    newShape (freshPca : PcaState ℚ) sfs scale = .error .attributeError := by
  by_cases h1 : scale = "eigs"
  · simp [newShape, pyAttr, freshPca, h1]
  · by_cases h2 : scale = "std"
    · simp [newShape, pyAttr, freshPca, h1, h2]
    · simp [newShape, pyAttr, freshPca, h1, h2]

/-! ## C7: registered shapes with differing vertex counts -/

theorem flattenVerts_length (s : List (α × α × α)) :
    (flattenVerts s).length = 3 * s.length := by
  induction s with
  | nil => simp [flattenVerts]
  | cons v t ih =>
    simp only [flattenVerts, List.map_cons, List.flatten_cons] at ih ⊢
    simp [ih]
    ring

/-- Counterexample to C7: on two registered shapes with 1 and 2 vertices
respectively, assembling the data matrix fails with numpy's
`ValueError` (refusing the ragged nested sequence), not the spec's
`TopologyMismatchError`. -/
theorem buildX_ragged_counterexample :
    buildX ([[(1, 2, 3)], [(4, 5, 6), (7, 8, 9)]] : List (List (ℚ × ℚ × ℚ)))
      = .error .valueError
    ∧ PyError.valueError ≠ PyError.topologyMismatchError := by
  constructor
  · simp [buildX, npArrayOfLists, flattenVerts]
  · intro h
    cases h

/-- C7 as amended: whenever two registered shapes disagree on vertex
count, `np.array` refuses the ragged list of flattened vertex arrays
and the matrix assembly fails with `ValueError` (under current numpy;
there is no `TopologyMismatchError` in the code). -/
theorem buildX_ragged_raises_value_error (registered : List (List (ℚ × ℚ × ℚ)))
    (i j : ℕ) (hi : i < registered.length) (hj : j < registered.length)
    (hne : (registered.getD i []).length ≠ (registered.getD j []).length) :
    buildX registered = .error .valueError := by
  cases registered with
  | nil => simp at hi
  | cons s0 ss =>
    have hall : ¬ ∀ s ∈ ss, (flattenVerts s).length = (flattenVerts s0).length := by
      intro hforall
      have huni : ∀ n, n < (s0 :: ss).length → ((s0 :: ss).getD n []).length
          = s0.length := by
        intro n hn
        cases n with
        | zero => simp
        | succ k =>
          have hk : k < ss.length := by simpa using hn
          have hmem : ss.getD k [] ∈ ss := by
            rw [List.getD_eq_getElem _ _ hk]
            exact List.getElem_mem hk
          have h3 := hforall _ hmem
          rw [flattenVerts_length, flattenVerts_length] at h3
          have := Nat.eq_of_mul_eq_mul_left (by norm_num : 0 < 3) h3
          simpa [List.getD_cons_succ] using this
      exact hne ((huni i hi).trans (huni j hj).symm)
    have hallb : ((ss.map flattenVerts).all
        fun t => t.length = (flattenVerts s0).length) = false := by
      by_contra h'
      rw [Bool.not_eq_false, List.all_eq_true] at h'
      apply hall
      intro s hs
      have := h' (flattenVerts s) (List.mem_map_of_mem _ hs)
      simpa using this
    simp only [buildX, List.map_cons, npArrayOfLists]
    rw [if_neg (by simp [hallb])]

/-- Witness for the amended C7 at a concrete ragged registered set:
shapes with 1 and 2 vertices. -/
theorem buildX_ragged_raises_value_error_witness :
    0 < ([[(0, 0, 0)], [(1, 1, 1), (2, 2, 2)]] : List (List (ℚ × ℚ × ℚ))).length
    ∧ 1 < ([[(0, 0, 0)], [(1, 1, 1), (2, 2, 2)]] : List (List (ℚ × ℚ × ℚ))).length
    ∧ (([[(0, 0, 0)], [(1, 1, 1), (2, 2, 2)]] : List (List (ℚ × ℚ × ℚ))).getD 0
        []).length
      ≠ (([[(0, 0, 0)], [(1, 1, 1), (2, 2, 2)]] : List (List (ℚ × ℚ × ℚ))).getD 1
        []).length
    ∧ buildX ([[(0, 0, 0)], [(1, 1, 1), (2, 2, 2)]] : List (List (ℚ × ℚ × ℚ)))
      = .error .valueError :=
  ⟨by norm_num, by norm_num, by simp,
    buildX_ragged_raises_value_error _ 0 1 (by norm_num) (by norm_num) (by simp)⟩

/-! ## C8: fewer than two registered shapes -/

/-- Counterexample to C8: with a single registered shape, the data
matrix is assembled without complaint and the fit *succeeds* (no error
at all, let alone `InsufficientDataError`); with zero shapes, the fit
fails — but with numpy's `AxisError` (mean over axis 1 of a 1-D array),
not `InsufficientDataError`.  The SVD oracle models numpy's successful
SVD of the 3×1 centered matrix; the scalar square root stands in for
`math.sqrt` and is irrelevant to which-error questions. -/
theorem fit_few_shapes_counterexample :
    buildX ([[(1, 2, 3)]] : List (List (ℚ × ℚ × ℚ))) = .ok (.two [[1], [2], [3]])
    ∧ (pcaMethod (fun x => x) (fun _ => .ok ([[1], [0], [0]], [0], [[1]]))
        ({ X := some (.two [[1], [2], [3]]) } : PcaState ℚ)).2 = none
    ∧ (none : Option PyError) ≠ some .insufficientDataError
    ∧ buildX ([] : List (List (ℚ × ℚ × ℚ))) = .ok (.one [])
    ∧ (pcaMethod (fun x => x) (fun _ => .ok ([], [], []))
        ({ X := some (.one []) } : PcaState ℚ)).2 = some .axisError
    ∧ PyError.axisError ≠ PyError.insufficientDataError := by
  refine ⟨?_, ?_, ?_, ?_, ?_, ?_⟩
  · simp [buildX, npArrayOfLists, flattenVerts, npT, rowsT, List.range_succ]
  · simp [pcaMethod]
  · intro h
    cases h
  · simp [buildX, npArrayOfLists, npT]
  · simp [pcaMethod]
  · intro h
    cases h

/-- C8 as amended: an empty registered set produces the empty 1-D array
as `X`, and the subsequent fit fails with numpy's `AxisError` (there is
no `InsufficientDataError` in the code); a 2-D `X` (any `N ≥ 1`
registered shapes of equal vertex count, including a single shape)
fits without error whenever the SVD succeeds — in particular a
single-shape corpus yields a (degenerate) model instead of an error. -/
theorem fit_few_shapes_behaviour :
    buildX ([] : List (List (ℚ × ℚ × ℚ))) = .ok (.one [])
    ∧ (∀ (st : PcaState ℚ) (sqrt : ℚ → ℚ)
        (svd : List (List ℚ) → Except PyError (List (List ℚ) × List ℚ × List (List ℚ)))
        (v : List ℚ), st.X = some (.one v) → pcaMethod sqrt svd st = (st, some .axisError))
    ∧ (∀ (st : PcaState ℚ) (sqrt : ℚ → ℚ)
        (svd : List (List ℚ) → Except PyError (List (List ℚ) × List ℚ × List (List ℚ)))
        (rows U S : _) (Vt : List (List ℚ)), st.X = some (.two rows) →
        svd (List.zipWith (fun r mi => r.map fun x => x - mi) rows
          (rows.map fun r => r.sum / (r.length : ℚ))) = .ok (U, S, Vt) →
        (pcaMethod sqrt svd st).2 = none) := by
  refine ⟨?_, ?_, ?_⟩
  · simp [buildX, npArrayOfLists, npT]
  · intro st sqrt svd v hX
    simp [pcaMethod, hX]
  · intro st sqrt svd rows U S Vt hX hsvd
    simp [pcaMethod, hX, hsvd]

/-- Witness for the amended C8: the no-shape fit fails with `AxisError`
and a one-shape fit succeeds, at concrete states and oracles. -/
theorem fit_few_shapes_behaviour_witness :
    pcaMethod (fun x => x) (fun _ => .ok ([], [], []))
      ({ X := some (.one []) } : PcaState ℚ)
      = (({ X := some (.one []) } : PcaState ℚ), some .axisError)
    ∧ (pcaMethod (fun x => x) (fun _ => .ok ([[1], [0], [0]], [0], [[1]]))
        ({ X := some (.two [[4], [5], [6]]) } : PcaState ℚ)).2 = none :=
  ⟨fit_few_shapes_behaviour.2.1 _ _ _ [] rfl,
    fit_few_shapes_behaviour.2.2 _ _ _ [[4], [5], [6]] [[1], [0], [0]] [0] [[1]]
      rfl rfl⟩

/-! ## C9: shape of the data matrix and the fitted mean -/

theorem rowsT_length (rows : List (List α)) :
    (rowsT rows).length = (rows.headD []).length := by
  simp [rowsT]

theorem rowsT_getD (rows : List (List α)) (i : ℕ) (hi : i < (rows.headD []).length) :
    (rowsT rows).getD i [] = rows.map fun r => r.getD i 0 := by
  unfold rowsT
  exact getD_range_map _ _ _ _ hi

theorem flattenVerts_cons (v : α × α × α) (t : List (α × α × α)) :
    flattenVerts (v :: t) = v.1 :: v.2.1 :: v.2.2 :: flattenVerts t := by
  simp [flattenVerts]

theorem flattenVerts_getD (s : List (α × α × α)) (j : ℕ) (hj : j < s.length) :
    (flattenVerts s).getD (3 * j) 0 = (s.getD j (0, 0, 0)).1
    ∧ (flattenVerts s).getD (3 * j + 1) 0 = (s.getD j (0, 0, 0)).2.1
    ∧ (flattenVerts s).getD (3 * j + 2) 0 = (s.getD j (0, 0, 0)).2.2 := by
  induction s generalizing j with
  | nil => simp at hj
  | cons v t ih =>
    cases j with
    | zero => simp [flattenVerts_cons]
    | succ k =>
      have hk : k < t.length := by simpa using hj
      obtain ⟨ih1, ih2, ih3⟩ := ih k hk
      rw [flattenVerts_cons]
      refine ⟨?_, ?_, ?_⟩
      · have h3 : 3 * (k + 1) = 3 * k + 1 + 1 + 1 := by ring
        rw [h3]
        simp only [List.getD_cons_succ]
        exact ih1
      · have h3 : 3 * (k + 1) + 1 = 3 * k + 1 + 1 + 1 + 1 := by ring
        rw [h3]
        simp only [List.getD_cons_succ]
        exact ih2
      · have h3 : 3 * (k + 1) + 2 = 3 * k + 2 + 1 + 1 + 1 := by ring
        rw [h3]
        simp only [List.getD_cons_succ]
        exact ih3

/-- C9: on a registered set of `N ≥ 1` shapes, each with `V` vertices,
the assembled data matrix `X` is 2-D with `3·V` rows, every row has
`N` entries, column `n` is exactly the flattened vertex array of the
`n`-th registered shape (in corpus order, vertex-major with the
`x, y, z` coordinates of vertex `j` at rows `3j`, `3j+1`, `3j+2`),
and whatever the SVD subsequently does, `pca.pca` stores as `pca_mean`
the row-wise average across the `N` columns of `X`. -/
theorem buildX_columns_are_flattened_shapes_and_fit_mean
    (registered : List (List (ℚ × ℚ × ℚ))) (V : ℕ)
    (hne : registered ≠ []) (hV : ∀ s ∈ registered, s.length = V) :
    ∃ X : List (List ℚ),
      buildX registered = .ok (.two X)
      ∧ X.length = 3 * V
      ∧ (∀ i, i < 3 * V → (X.getD i []).length = registered.length)
      ∧ (∀ n, n < registered.length → ∀ i, i < 3 * V →
          (X.getD i []).getD n 0 = (flattenVerts (registered.getD n [])).getD i 0)
      ∧ (∀ n, n < registered.length → ∀ j, j < V →
          (X.getD (3 * j) []).getD n 0 = ((registered.getD n []).getD j (0, 0, 0)).1
          ∧ (X.getD (3 * j + 1) []).getD n 0
            = ((registered.getD n []).getD j (0, 0, 0)).2.1
          ∧ (X.getD (3 * j + 2) []).getD n 0
            = ((registered.getD n []).getD j (0, 0, 0)).2.2)
      ∧ (∀ (st : PcaState ℚ) (sqrt : ℚ → ℚ)
          (svd : List (List ℚ) → Except PyError (List (List ℚ) × List ℚ × List (List ℚ))),
          st.X = some (.two X) →
          ∃ mvec, ((pcaMethod sqrt svd st).1).pca_mean = some mvec
            ∧ mvec.length = 3 * V
            ∧ ∀ i, i < 3 * V →
                mvec.getD i 0 = ((List.range registered.length).map fun n =>
                  (X.getD i []).getD n 0).sum / (registered.length : ℚ)) := by
  cases registered with
  | nil => exact absurd rfl hne
  | cons s0 ss =>
    have hs0 : s0.length = V := hV s0 (by simp)
    have hf0 : (flattenVerts s0).length = 3 * V := by rw [flattenVerts_length, hs0]
    have hallb : ((ss.map flattenVerts).all
        fun t => t.length = (flattenVerts s0).length) = true := by
      rw [List.all_eq_true]
      intro t ht
      rw [List.mem_map] at ht
      obtain ⟨s, hs, rfl⟩ := ht
      simp [flattenVerts_length, hV s (List.mem_cons_of_mem _ hs), hs0]
    have hbuild : buildX (s0 :: ss)
        = .ok (.two (rowsT (flattenVerts s0 :: ss.map flattenVerts))) := by
      simp only [buildX, List.map_cons, npArrayOfLists]
      rw [if_pos (by simp [hallb])]
      simp [npT]
    have hXlen : (rowsT (flattenVerts s0 :: ss.map flattenVerts)).length = 3 * V := by
      rw [rowsT_length]
      simpa using hf0
    have hXrow : ∀ i, i < 3 * V →
        (rowsT (flattenVerts s0 :: ss.map flattenVerts)).getD i []
          = (flattenVerts s0 :: ss.map flattenVerts).map fun r => r.getD i 0 := by
      intro i hi
      exact rowsT_getD _ i (by simpa [hf0] using hi)
    have hrowlen : ∀ i, i < 3 * V →
        ((rowsT (flattenVerts s0 :: ss.map flattenVerts)).getD i []).length
          = (s0 :: ss).length := by
      intro i hi
      rw [hXrow i hi]
      simp
    have hentry : ∀ n, n < (s0 :: ss).length → ∀ i, i < 3 * V →
        (((rowsT (flattenVerts s0 :: ss.map flattenVerts)).getD i []).getD n 0)
          = (flattenVerts ((s0 :: ss).getD n [])).getD i 0 := by
      intro n hn i hi
      rw [hXrow i hi]
      rw [← List.map_cons, List.map_map]
      rw [List.getD_eq_getElem _ _ (by simpa using hn), List.getElem_map]
      rw [List.getD_eq_getElem (s0 :: ss) _ hn]
      rfl
    refine ⟨rowsT (flattenVerts s0 :: ss.map flattenVerts), hbuild, hXlen,
      hrowlen, hentry, ?_, ?_⟩
    · intro n hn j hj
      have hsmem : (s0 :: ss).getD n [] ∈ (s0 :: ss) := by
        rw [List.getD_eq_getElem _ _ hn]
        exact List.getElem_mem hn
      have hsV : ((s0 :: ss).getD n []).length = V := hV _ hsmem
      have hjs : j < ((s0 :: ss).getD n []).length := by rw [hsV]; exact hj
      obtain ⟨hc1, hc2, hc3⟩ := flattenVerts_getD ((s0 :: ss).getD n []) j hjs
      refine ⟨?_, ?_, ?_⟩
      · rw [hentry n hn (3 * j) (by omega)]
        exact hc1
      · rw [hentry n hn (3 * j + 1) (by omega)]
        exact hc2
      · rw [hentry n hn (3 * j + 2) (by omega)]
        exact hc3
    · intro st sqrt svd hX'
      have hmean : ((pcaMethod sqrt svd st).1).pca_mean
          = some ((rowsT (flattenVerts s0 :: ss.map flattenVerts)).map
              fun r => r.sum / (r.length : ℚ)) := by
        simp only [pcaMethod, hX']
        cases hres : svd (List.zipWith (fun r mi => r.map fun x => x - mi)
            (rowsT (flattenVerts s0 :: ss.map flattenVerts))
            ((rowsT (flattenVerts s0 :: ss.map flattenVerts)).map
              fun r => r.sum / (r.length : ℚ))) with
        | error e => simp [hres]
        | ok t =>
          obtain ⟨U, S, Vt⟩ := t
          simp [hres]
      refine ⟨(rowsT (flattenVerts s0 :: ss.map flattenVerts)).map
        fun r => r.sum / (r.length : ℚ), hmean, by simp [hXlen], ?_⟩
      intro i hi
      have him : i < (rowsT (flattenVerts s0 :: ss.map flattenVerts)).length := by
        rw [hXlen]; exact hi
      rw [List.getD_eq_getElem _ _ (by simpa [hXlen] using hi), List.getElem_map]
      rw [← List.getD_eq_getElem _ _ him]
      rw [hrowlen i hi]
      rw [sum_eq_range_getD_sum _ (s0 :: ss).length (hrowlen i hi)]

/-- Witness for C9 at a concrete registered set: two one-vertex shapes
`[(1,2,3)]` and `[(4,5,6)]` (so `D = 3`, `N = 2`). -/
theorem buildX_columns_are_flattened_shapes_and_fit_mean_witness :
    ∃ X : List (List ℚ),
      buildX ([[(1, 2, 3)], [(4, 5, 6)]] : List (List (ℚ × ℚ × ℚ))) = .ok (.two X)
      ∧ X.length = 3 * 1
      ∧ (∀ i, i < 3 * 1 → (X.getD i []).length
          = ([[(1, 2, 3)], [(4, 5, 6)]] : List (List (ℚ × ℚ × ℚ))).length)
      ∧ (∀ n, n < ([[(1, 2, 3)], [(4, 5, 6)]] : List (List (ℚ × ℚ × ℚ))).length →
          ∀ i, i < 3 * 1 →
          (X.getD i []).getD n 0 = (flattenVerts
            (([[(1, 2, 3)], [(4, 5, 6)]] : List (List (ℚ × ℚ × ℚ))).getD n [])).getD i 0)
      ∧ (∀ n, n < ([[(1, 2, 3)], [(4, 5, 6)]] : List (List (ℚ × ℚ × ℚ))).length →
          ∀ j, j < 1 →
          (X.getD (3 * j) []).getD n 0
            = ((([[(1, 2, 3)], [(4, 5, 6)]] : List (List (ℚ × ℚ × ℚ))).getD n
                []).getD j (0, 0, 0)).1
          ∧ (X.getD (3 * j + 1) []).getD n 0
            = ((([[(1, 2, 3)], [(4, 5, 6)]] : List (List (ℚ × ℚ × ℚ))).getD n
                []).getD j (0, 0, 0)).2.1
          ∧ (X.getD (3 * j + 2) []).getD n 0
            = ((([[(1, 2, 3)], [(4, 5, 6)]] : List (List (ℚ × ℚ × ℚ))).getD n
                []).getD j (0, 0, 0)).2.2)
      ∧ (∀ (st : PcaState ℚ) (sqrt : ℚ → ℚ)
          (svd : List (List ℚ) → Except PyError (List (List ℚ) × List ℚ × List (List ℚ))),
          st.X = some (.two X) →
          ∃ mvec, ((pcaMethod sqrt svd st).1).pca_mean = some mvec
            ∧ mvec.length = 3 * 1
            ∧ ∀ i, i < 3 * 1 →
                mvec.getD i 0 = ((List.range
                    ([[(1, 2, 3)], [(4, 5, 6)]] : List (List (ℚ × ℚ × ℚ))).length).map
                  fun n => (X.getD i []).getD n 0).sum
                  / (([[(1, 2, 3)], [(4, 5, 6)]] : List (List (ℚ × ℚ × ℚ))).length : ℚ)) :=
  buildX_columns_are_flattened_shapes_and_fit_mean
    ([[(1, 2, 3)], [(4, 5, 6)]] : List (List (ℚ × ℚ × ℚ))) 1
    (by simp)
    (by intro s hs; simp at hs; rcases hs with h | h <;> simp [h])

/-! ## C10: unrecognised scale mode -/

/-- C10: on a fitted model (`pca_mean` assigned), `newShape` with any
scale-mode string other than `'eigs'` and `'std'` never returns a
shape: the local `sf` is only assigned in the two recognised branches,
so the method fails with `UnboundLocalError` at `self.pca_mean + sf`
instead of falling back to a default mode. -/
theorem newShape_unknown_scale_raises_unbound_local (st : PcaState ℚ) (m : List ℚ)
    (sfs : List ℚ) (scale : String)
    (hm : st.pca_mean = some m) (h1 : scale ≠ "eigs") (h2 : scale ≠ "std") :
    newShape st sfs scale = .error .unboundLocalError := by
  simp [newShape, pyAttr, hm, h1, h2]

/-- Witness for C10 at a concrete fitted model and the unrecognised
scale string `"raw"`. -/
theorem newShape_unknown_scale_raises_unbound_local_witness :
    newShape ({ pca_mean := some [1], pca_U := some [[2]],
                pc_stdevs := some [1] } : PcaState ℚ) [5] "raw"
      = .error .unboundLocalError :=
  newShape_unknown_scale_raises_unbound_local
    ({ pca_mean := some [1], pca_U := some [[2]], pc_stdevs := some [1] } : PcaState ℚ)
    [1] [5] "raw" rfl (by simp) (by simp)
